import Mathlib

/-
Verification of the remediation / knowledge-bank subsystem of the
megalodon-lloyds repository.

The Python sources are shallowly embedded:
  * Python `str` values are modelled as `List Char` (ASCII payloads: SQL
    statements, identifiers, dates).  `str.upper`/`str.lower` are modelled
    ASCII-wise, `str.find` by `findSub`, the substring test `in` by
    `containsSubstr`, and `str.replace` (which replaces every
    non-overlapping occurrence, scanning left to right) by `pyReplace`.
  * `re.sub(rf'\btable\b', repl, s)` for an identifier `table` (word
    characters only) is modelled by `wordSub`.
  * Python floats that hold exact count ratios are modelled as rationals.
  * Functions with side effects are modelled by explicit state passing；
    queries that would be sent to the data store are returned as values.
-/

set_option maxRecDepth 100000

namespace DQ

/-- Python strings, modelled as lists of characters. -/
abbrev Str : Type := List Char

/-- ASCII model of `str.upper` on a single character. -/
def upperChar (c : Char) : Char :=
  if 'a' ≤ c ∧ c ≤ 'z' then Char.ofNat (c.toNat - 32) else c

/-- ASCII model of `str.upper`. -/
def upperStr (s : Str) : Str := s.map upperChar

/-- ASCII model of `str.lower` on a single character. -/
def lowerChar (c : Char) : Char :=
  if 'A' ≤ c ∧ c ≤ 'Z' then Char.ofNat (c.toNat + 32) else c

/-- ASCII model of `str.lower`. -/
def lowerStr (s : Str) : Str := s.map lowerChar

/-- Model of Python `s.find(pat)` (index of the first occurrence of `pat`
in `s`), returning `none` instead of `-1` when there is no occurrence. -/
def findSub (pat : Str) : Str → Option Nat
  | [] => if pat.isPrefixOf [] then some 0 else none
  | c :: rest =>
    if pat.isPrefixOf (c :: rest) then some 0
    else (findSub pat rest).map (fun n => n + 1)

/-- Model of Python `pat in s`. -/
def containsSubstr (s pat : Str) : Bool := (findSub pat s).isSome

/-- Fuel-driven worker for `pyReplace`; the fuel bounds the number of scan
steps so that the recursion is structural and kernel-reducible. -/
def replaceFuel (pat rep : Str) : Nat → Str → Str
  | 0, s => s
  | _ + 1, [] => []
  | f + 1, c :: rest =>
    if pat ≠ [] ∧ pat.isPrefixOf (c :: rest) = true then
      rep ++ replaceFuel pat rep f ((c :: rest).drop pat.length)
    else
      c :: replaceFuel pat rep f rest

/-- Model of Python `s.replace(pat, rep)` for a non-empty `pat`: every
non-overlapping occurrence of `pat` is replaced, scanning left to right. -/
def pyReplace (s pat rep : Str) : Str := replaceFuel pat rep s.length s

/-- The pattern `pat` occurs somewhere inside `s` as a contiguous substring. -/
def occursIn (pat s : Str) : Prop := ∃ t u, s = t ++ pat ++ u

/-- A word character in the sense of the regex escape for word boundaries:
letters, digits and underscore. -/
def wordChar (c : Char) : Bool := c.isAlphanum || c = '_'

/-- A word boundary holds against a neighbouring character (string edges
count as boundaries). -/
def boundaryOk : Option Char → Bool
  | none => true
  | some c => !(wordChar c)

/-- Fuel-driven worker for `wordSub`; `prev` is the character preceding the
scan position in the original string. -/
def wordSubFuel (pat rep : Str) : Nat → Option Char → Str → Str
  | 0, _, s => s
  | _ + 1, _, [] => []
  | f + 1, prev, c :: rest =>
    if pat ≠ [] ∧ pat.isPrefixOf (c :: rest) = true ∧ boundaryOk prev = true
        ∧ boundaryOk ((c :: rest).drop pat.length).head? = true then
      rep ++ wordSubFuel pat rep f pat.getLast? ((c :: rest).drop pat.length)
    else
      c :: wordSubFuel pat rep f (some c) rest

/-- Model of Python `re.sub(rf'\b{name}\b', rep, s)` for a `name` made of
word characters only (the case used by the source: a table identifier):
every occurrence of `pat` flanked by word boundaries is replaced, scanning
left to right without rescanning replacement text. -/
def wordSub (s pat rep : Str) : Str := wordSubFuel pat rep s.length none s

/-- Decimal digit character. -/
def digitChar (d : Nat) : Char := Char.ofNat (48 + d)

/-- Fuel-driven worker for `natDec`. -/
def natDecAux : Nat → Nat → Str → Str
  | 0, _, acc => acc
  | f + 1, k, acc =>
    if k < 10 then digitChar k :: acc
    else natDecAux f (k / 10) (digitChar (k % 10) :: acc)

/-- Decimal representation of a natural number. -/
def natDec (k : Nat) : Str := natDecAux (k + 1) k []

/-- Left-pad with zeros to a minimum width, as Python's `%04d`-style
formatting does. -/
def padWidth (w : Nat) (d : Str) : Str := List.replicate (w - d.length) '0' ++ d

/-- Whitespace in the sense of Python's argument-less `str.split` (ASCII
fragment). -/
def isSpaceChar (c : Char) : Bool :=
  c = ' ' || c = '\t' || c = '\n' || c = '\x0d' || c = '\x0b' || c = '\x0c'

/-- Worker for `splitWords`; `cur` holds the (reversed) current word. -/
def splitWordsAux (cur : Str) : Str → List Str
  | [] => if cur = [] then [] else [cur.reverse]
  | c :: rest =>
    if isSpaceChar c then
      if cur = [] then splitWordsAux [] rest
      else cur.reverse :: splitWordsAux [] rest
    else splitWordsAux (c :: cur) rest

/-- Model of Python `s.split()` with no separator: split on runs of
whitespace, discarding empty fragments. -/
def splitWords (s : Str) : List Str := splitWordsAux [] s

/-! ## Remediator safety gate (src/dq_agents/remediator/tools.py)

`dry_run_fix` and `execute_fix` first resolve table placeholders in the
proposed statement and then validate / transform it.  The BigQuery client
calls are at the boundary of the embedding: the functions below return the
statements that would be sent to the data store, or the error with which
the statement is rejected before any store access. -/

/-- The token "UPDATE". -/
def updTok : Str := ("UPDATE").toList

/-- The token "DELETE". -/
def delTok : Str := ("DELETE").toList

/-- The token "WHERE". -/
def whereTok : Str := ("WHERE").toList

/-- The placeholder "{table}". -/
def tablePh : Str := ("\x7btable\x7d").toList

/-- The placeholder "TABLE_NAME". -/
def tableNameTok : Str := ("TABLE_NAME").toList

/-- The placeholder "{{table}}". -/
def tableBrPh : Str := ("\x7b\x7btable\x7d\x7d").toList

/-- `tools.py` line 38 / 133: the fully-qualified backticked table
reference built from the environment's project and dataset ids. -/
def fullTableOf (proj ds table : Str) : Str :=
  ("`").toList ++ proj ++ (".").toList ++ ds ++ (".").toList ++ table
    ++ ("`").toList

/-- `tools.py` lines 40-44 / 135-139: replace each of the three table
placeholder forms by the fully-qualified reference, then re-substitute bare
word-bounded occurrences of the table name. -/
def resolveTable (sql table full : Str) : Str :=
  wordSub (pyReplace (pyReplace (pyReplace sql tablePh full)
    tableNameTok full) tableBrPh full) table full

/-- Error text of `dry_run_fix` for an UPDATE without WHERE. -/
def updErr : Str := ("UPDATE statement must have WHERE clause for safety").toList

/-- Error text of `dry_run_fix` for a DELETE without WHERE. -/
def delErr : Str := ("DELETE statement must have WHERE clause for safety").toList

/-- Error text of `execute_fix`'s safety check. -/
def execErr : Str := ("UPDATE/DELETE without WHERE clause is not allowed").toList

/-- `tools.py` line 84: derive the count query from the dry-run query by
string replacement. -/
def countSqlOf (d : Str) : Str :=
  pyReplace (pyReplace d (("SELECT *").toList)
    (("SELECT COUNT(*) as total").toList)) (("LIMIT 100").toList) []

/-- `tools.py` lines 46-84: convert a resolved UPDATE/DELETE into a
SELECT preview capped at 100 rows plus a count query, or reject the
statement when no "WHERE" is found.  Statements that are neither UPDATE nor
DELETE pass through unchanged.  On success the pair (dry-run query, count
query) of statements sent to the store is returned. -/
def dryRunDerive (sql full : Str) : Except Str (Str × Str) :=
  if containsSubstr (upperStr sql) updTok = true then
    match findSub whereTok (upperStr sql) with
    | some i =>
      let d := ("SELECT * FROM ").toList ++ full ++ (" ").toList
        ++ sql.drop i ++ (" LIMIT 100").toList
      .ok (d, countSqlOf d)
    | none => .error updErr
  else if containsSubstr (upperStr sql) delTok = true then
    match findSub whereTok (upperStr sql) with
    | some i =>
      let d := ("SELECT * FROM ").toList ++ full ++ (" ").toList
        ++ sql.drop i ++ (" LIMIT 100").toList
      .ok (d, countSqlOf d)
    | none => .error delErr
  else
    .ok (sql, countSqlOf sql)

/-- `dry_run_fix` from line 38 onward: resolve placeholders, then derive
the preview.  The prior qualifier-cleanup regexes of lines 28-35 are not
modelled; both can rewrite only identifiers containing a dot, and every
template this file passes to `dryRunFix` or `executeFix` is dot-free
(dots appear only inside the backticked identifier the code itself
builds afterwards), so on each such input the omitted step is the
identity and the model agrees with `dry_run_fix` end to end. -/
def dryRunFix (fixSql table proj ds : Str) : Except Str (Str × Str) :=
  dryRunDerive (resolveTable fixSql table (fullTableOf proj ds table))
    (fullTableOf proj ds table)

/-- `tools.py` lines 141-147 plus the subsequent execution: the safety
check of `execute_fix` on the resolved statement.  `.ok sql` means the
statement is passed to the data store verbatim; `.error` means it is
rejected before any store access. -/
def executeGate (sql : Str) : Except Str Str :=
  if (containsSubstr (upperStr sql) updTok || containsSubstr (upperStr sql) delTok)
      = true ∧ containsSubstr (upperStr sql) whereTok = false then
    .error execErr
  else
    .ok sql

/-- `execute_fix` end to end: resolve placeholders, then gate. -/
def executeFix (fixSql table proj ds : Str) : Except Str Str :=
  executeGate (resolveTable fixSql table (fullTableOf proj ds table))

/-- Truth of `Except.isOk`. -/
def exceptIsOk : Except Str α → Bool
  | .ok _ => true
  | .error _ => false

/-- Modelled from the spec: a "WHERE-equivalent scoping clause" is read as
a standalone occurrence of the word WHERE (flanked by word boundaries) in
the uppercased statement.  Worker carrying the previous character. -/
def containsWordAux (pat : Str) : Option Char → Str → Bool
  | _, [] => false
  | prev, c :: rest =>
    (pat.isPrefixOf (c :: rest) && boundaryOk prev
      && boundaryOk ((c :: rest).drop pat.length).head?)
    || containsWordAux pat (some c) rest

/-- Modelled from the spec: the statement contains `pat` as a standalone
word. -/
def containsWord (s pat : Str) : Bool := containsWordAux pat none s

/-! ## Knowledge Bank (src/knowledge_bank/kb_manager.py)

The JSON store is modelled by explicit state passing: every mutating
method returns the store that `save()` would persist.  Python dicts keep
insertion order and have unique keys; they are modelled as association
lists, looked up and updated at the first matching key.  Python floats
holding count ratios are modelled as exact rationals, and
`datetime.now().strftime(...)` is passed in as an explicit `today`
argument. -/

/-- One entry of a pattern's `historical_fixes` list. -/
structure HistoricalFix where
  fix_id : Str
  fix_type : Str
  action : Str
  description : Str
  success_rate : ℚ
  approval_count : Nat
  rejection_count : Nat
  auto_approve : Bool
  last_used : Str
  sql_template : Str
  deriving DecidableEq

/-- One value of the `issue_patterns` mapping. -/
structure IssuePattern where
  pattern : Str
  description : Str
  dq_dimension : Str
  historical_fixes : List HistoricalFix
  deriving DecidableEq

/-- The `metadata` object of the store. -/
structure KBMeta where
  total_patterns : Nat
  total_fixes : Nat
  last_updated : Str
  auto_approve_threshold : ℚ
  min_approval_count_for_auto : Nat
  deriving DecidableEq

/-- The whole persisted Knowledge Bank. -/
structure KB where
  metadata : KBMeta
  issue_patterns : List (Str × IssuePattern)
  deriving DecidableEq

/-- The `fix_data` dict passed to `add_new_fix`, with the `.get` defaults
already applied by the caller (absent keys give `0.0`, `0`, `false`, or
the empty string, which the caller of this model supplies explicitly). -/
structure FixData where
  pattern : Str
  description : Str
  dq_dimension : Str
  fix_id : Str
  fix_type : Str
  action : Str
  sql_template : Str
  success_rate : ℚ
  approval_count : Nat
  rejection_count : Nat
  auto_approve : Bool
  deriving DecidableEq

/-- Dict lookup: first entry whose key matches. -/
def lookupPattern (kb : KB) (pid : Str) : Option IssuePattern :=
  (kb.issue_patterns.find? (fun e => decide (e.fst = pid))).map Prod.snd

/-- Dict update at a key: rewrite the first entry with the matching key. -/
def updateEntry : List (Str × IssuePattern) → Str → (IssuePattern → IssuePattern)
    → List (Str × IssuePattern)
  | [], _, _ => []
  | (k, v) :: rest, pid, g =>
    if k = pid then (k, g v) :: rest else (k, v) :: updateEntry rest pid g

/-- First fix of a list carrying the given `fix_id`. -/
def findFix (fid : Str) (l : List HistoricalFix) : Option HistoricalFix :=
  l.find? (fun f => decide (f.fix_id = fid))

/-- `get_fix_by_id`: linear scan of the pattern's fixes, first match wins. -/
def getFixById (kb : KB) (pid fid : Str) : Option HistoricalFix :=
  (lookupPattern kb pid).bind (fun p => findFix fid p.historical_fixes)

/-- `add_new_fix` lines 107-118: the appended record stores the
caller-supplied statistics verbatim and stamps `last_used` with today. -/
def mkStoredFix (today : Str) (fd : FixData) : HistoricalFix :=
  { fix_id := fd.fix_id
    fix_type := fd.fix_type
    action := fd.action
    description := fd.description
    success_rate := fd.success_rate
    approval_count := fd.approval_count
    rejection_count := fd.rejection_count
    auto_approve := fd.auto_approve
    last_used := today
    sql_template := fd.sql_template }

/-- `add_new_fix`: create the pattern if absent (inserted at the end, as a
new dict key is), append the new fix, recompute the metadata totals, and
persist (`save()` refreshes `last_updated`). -/
def addNewFix (kb : KB) (today pid : Str) (fd : FixData) : KB :=
  let pats0 :=
    if (lookupPattern kb pid).isNone then
      kb.issue_patterns ++ [(pid,
        { pattern := fd.pattern
          description := fd.description
          dq_dimension := fd.dq_dimension
          historical_fixes := [] })]
    else kb.issue_patterns
  let pats1 := updateEntry pats0 pid
    (fun p => { p with historical_fixes :=
      p.historical_fixes ++ [mkStoredFix today fd] })
  { metadata :=
      { kb.metadata with
        total_patterns := pats1.length
        total_fixes := (pats1.map (fun e => e.snd.historical_fixes.length)).sum
        last_updated := today }
    issue_patterns := pats1 }

/-- `update_fix_stats` lines 144-161, the mutation of the matched fix:
increment one counter, recompute `success_rate` from the counters,
recompute `auto_approve` from the store thresholds, stamp `last_used`. -/
def applyOutcome (θ : ℚ) (m : Nat) (today : Str) (approved : Bool)
    (f : HistoricalFix) : HistoricalFix :=
  let a := if approved then f.approval_count + 1 else f.approval_count
  let r := if approved then f.rejection_count else f.rejection_count + 1
  let total := a + r
  let rate : ℚ := if 0 < total then (a : ℚ) / (total : ℚ) else 0
  { f with
    approval_count := a
    rejection_count := r
    success_rate := rate
    auto_approve := decide (θ ≤ rate) && decide (m ≤ a)
    last_used := today }

/-- Update the first fix carrying `fid` (the loop `break`s after the first
match); a list without a match is returned unchanged. -/
def updateFirstFix (fid : Str) (g : HistoricalFix → HistoricalFix) :
    List HistoricalFix → List HistoricalFix
  | [] => []
  | f :: rest =>
    if f.fix_id = fid then g f :: rest else f :: updateFirstFix fid g rest

/-- `update_fix_stats`: a missing pattern returns before any write (exact
no-op); otherwise the first matching fix (if any) is updated and the store
is persisted, which refreshes `metadata.last_updated` even when no fix
matched. -/
def updateFixStats (kb : KB) (today pid fid : Str) (approved : Bool) : KB :=
  if (lookupPattern kb pid).isNone then kb
  else
    let g := applyOutcome kb.metadata.auto_approve_threshold
      kb.metadata.min_approval_count_for_auto today approved
    { metadata := { kb.metadata with last_updated := today }
      issue_patterns := updateEntry kb.issue_patterns pid
        (fun p => { p with
          historical_fixes := updateFirstFix fid g p.historical_fixes }) }

/-! ## Pattern matcher (`search_similar_issue`) -/

/-- Keyword set of a description: lowercase, split on whitespace, as a
finite set (Python `set(s.lower().split())`). -/
def wordSet (s : Str) : Finset Str := (splitWords (lowerStr s)).toFinset

/-- Jaccard similarity of two keyword sets; `0` when the union is empty
(Python's falsy-set guard). -/
def jaccard (a b : Finset Str) : ℚ :=
  if (a ∪ b).card = 0 then 0
  else ((a ∩ b).card : ℚ) / ((a ∪ b).card : ℚ)

/-- Similarity of the query keyword set against one stored pattern. -/
def patternSim (qs : Finset Str) (p : IssuePattern) : ℚ :=
  jaccard qs (wordSet p.description)

/-- The dictionary returned on a match. -/
structure SearchHit where
  pattern_id : Str
  pattern : Str
  description : Str
  similarity : ℚ
  historical_fixes : List HistoricalFix
  deriving DecidableEq

/-- Build the result dictionary for one matching pattern. -/
def mkHit (pid : Str) (p : IssuePattern) (sim : ℚ) : SearchHit :=
  { pattern_id := pid
    pattern := p.pattern
    description := p.description
    similarity := sim
    historical_fixes := p.historical_fixes }

/-- The scanning loop of `search_similar_issue`: keep the current best
match, replacing it only when a pattern scores strictly higher than both
the best so far and the fixed threshold of `0.3`. -/
def searchGo (qs : Finset Str) :
    List (Str × IssuePattern) → ℚ → Option SearchHit → Option SearchHit
  | [], _, best => best
  | (pid, p) :: rest, bsim, best =>
    let sim := patternSim qs p
    if bsim < sim ∧ (3 : ℚ)/10 < sim then
      searchGo qs rest sim (some (mkHit pid p sim))
    else
      searchGo qs rest bsim best

/-- `search_similar_issue` (the `issue_pattern` argument is accepted but
unused by the source, which matches on the description only). -/
def searchSimilarIssue (kb : KB) (_issuePat issueDesc : Str) : Option SearchHit :=
  searchGo (wordSet issueDesc) kb.issue_patterns 0 none

/-- Specification-side selector, following the spec's words: the highest
similarity among the stored patterns (`0` for an empty store). -/
def maxSimOf (qs : Finset Str) (l : List (Str × IssuePattern)) : ℚ :=
  (l.map (fun e => patternSim qs e.snd)).foldr max 0

/-! ## Ticket manager (src/jira_mock/ticket_manager.py) -/

/-- One persisted ticket. -/
structure Ticket where
  ticket_id : Str
  summary : Str
  description : Str
  priority : Str
  affected_rows : Nat
  status : Str
  created_at : Str
  assignee : Str
  labels : List Str
  comments : List Str
  attachment : Option (Str × Str)
  deriving DecidableEq

/-- The persisted ticket log. -/
structure TicketStore where
  last_ticket_id : Nat
  tickets : List Ticket
  deriving DecidableEq

/-- `f"DQ-{n:04d}"`. -/
def fmtTicketId (n : Nat) : Str := ("DQ-").toList ++ padWidth 4 (natDec n)

/-- The arguments of one `create_ticket` call (`now` standing for
`datetime.now().isoformat()`). -/
structure TicketArgs where
  now : Str
  summary : Str
  description : Str
  priority : Str
  affected_rows : Nat
  fix_sql : Option Str
  assignee : Str

/-- `create_ticket`: assign the next sequential id, build the ticket with
status OPEN, append it to the log and bump `last_ticket_id`.  The
attachment is present only for a truthy (non-empty) `fix_sql`. -/
def createTicket (st : TicketStore) (a : TicketArgs) : Ticket × TicketStore :=
  let n := st.last_ticket_id + 1
  let t : Ticket :=
    { ticket_id := fmtTicketId n
      summary := a.summary
      description := a.description
      priority := a.priority
      affected_rows := a.affected_rows
      status := ("OPEN").toList
      created_at := a.now
      assignee := a.assignee
      labels := [("data-quality").toList, ("auto-generated").toList,
        ("bancs").toList]
      comments := []
      attachment :=
        match a.fix_sql with
        | some s => if s = [] then none else some ((("fix_sql.sql").toList), s)
        | none => none }
  (t, { last_ticket_id := n, tickets := st.tickets ++ [t] })

/-- A sequence of `create_ticket` calls against the same log. -/
def runCreates (st : TicketStore) : List TicketArgs → TicketStore
  | [] => st
  | a :: rest => runCreates (createTicket st a).snd rest

/-- The backtick character. -/
def backtickChar : Char := Char.ofNat 96

/-- The left-brace character. -/
def lbraceChar : Char := Char.ofNat 123

/-- Claim C2, template with two table placeholders. -/
def C2tpl : Str :=
  ("UPDATE \x7btable\x7d SET x = 1 WHERE id IN (SELECT id FROM \x7btable\x7d)").toList

/-- Claim C2, template retaining a non-table placeholder. -/
def C2tplB : Str :=
  ("UPDATE \x7btable\x7d SET x = \x7bvalue\x7d WHERE id = 1").toList

/-- Claim C2, the fully-qualified identifier for table `customers`. -/
def C2full : Str :=
  fullTableOf (("p").toList) (("d").toList) (("customers").toList)

/-- Claim C6, a template whose WHERE predicate itself contains
"SELECT *".  It is dot-free, so the qualifier-cleanup regexes of
`tools.py` lines 28-35 (not modelled, see `dryRunFix`) leave it
unchanged. -/
def C6btpl : Str :=
  ("UPDATE \x7btable\x7d SET x = 1 WHERE EXISTS (SELECT * FROM u WHERE uid = 1)").toList

/-- A sequence of `update_outcome` calls addressed at one fix. -/
def applySeq (today pid fid : Str) : KB → List Bool → KB
  | kb, [] => kb
  | kb, b :: rest => applySeq today pid fid (updateFixStats kb today pid fid b) rest

/-- Claim C4, the store used by the witness. -/
def C4kb : KB :=
  { metadata :=
      { total_patterns := 1
        total_fixes := 1
        last_updated := ("2024-01-01").toList
        auto_approve_threshold := 17/20
        min_approval_count_for_auto := 3 }
    issue_patterns :=
      [((("P1").toList),
        { pattern := ("x IS NULL").toList
          description := ("null values in column x").toList
          dq_dimension := ("Completeness").toList
          historical_fixes :=
            [{ fix_id := ("F1").toList
               fix_type := ("DATA_REPAIR").toList
               action := ("fill").toList
               description := ("fill nulls").toList
               success_rate := 0
               approval_count := 0
               rejection_count := 0
               auto_approve := false
               last_used := ("2024-01-01").toList
               sql_template :=
                 ("UPDATE \x7btable\x7d SET x = 0 WHERE x IS NULL").toList }] })] }

/-- Claim C3, an empty store with threshold 0.85 and minimum 3. -/
def C3kb : KB :=
  { metadata :=
      { total_patterns := 0
        total_fixes := 0
        last_updated := ("2024-01-01").toList
        auto_approve_threshold := 17/20
        min_approval_count_for_auto := 3 }
    issue_patterns := [] }

/-- Claim C3, a `fix_data` payload carrying a stale `success_rate` and
`auto_approve` inconsistent with its own counters. -/
def C3fd : FixData :=
  { pattern := ("dob > CURRENT_DATE").toList
    description := ("future dates of birth").toList
    dq_dimension := ("Accuracy").toList
    fix_id := ("F1").toList
    fix_type := ("DATA_REPAIR").toList
    action := ("null out").toList
    sql_template := ("UPDATE \x7btable\x7d SET dob = NULL WHERE dob > CURRENT_DATE").toList
    success_rate := 9/10
    approval_count := 1
    rejection_count := 1
    auto_approve := true }

/-- Claim C3, a stored fix with one approval for the witness of the update
path. -/
def C3fxU : HistoricalFix :=
  { fix_id := ("F1").toList
    fix_type := ("DATA_REPAIR").toList
    action := ("null out").toList
    description := ("null out bad dob").toList
    success_rate := 1
    approval_count := 1
    rejection_count := 0
    auto_approve := false
    last_used := ("2024-01-01").toList
    sql_template :=
      ("UPDATE \x7btable\x7d SET dob = NULL WHERE dob > CURRENT_DATE").toList }

/-- Claim C3, store with one fix for the witness of the update path. -/
def C3kbU : KB :=
  { metadata :=
      { total_patterns := 1
        total_fixes := 1
        last_updated := ("2024-01-01").toList
        auto_approve_threshold := 17/20
        min_approval_count_for_auto := 3 }
    issue_patterns :=
      [((("P1").toList),
        { pattern := ("dob > CURRENT_DATE").toList
          description := ("future dates of birth").toList
          dq_dimension := ("Accuracy").toList
          historical_fixes := [C3fxU] })] }

/-- Claim C5, a stored fix with one approval and no rejections. -/
def C5fx : HistoricalFix :=
  { fix_id := ("F1").toList
    fix_type := ("DATA_REPAIR").toList
    action := ("null out").toList
    description := ("null out bad dob").toList
    success_rate := 1
    approval_count := 1
    rejection_count := 0
    auto_approve := false
    last_used := ("2024-01-01").toList
    sql_template :=
      ("UPDATE \x7btable\x7d SET dob = NULL WHERE dob > CURRENT_DATE").toList }

/-- Claim C5, store with threshold 0.85 and minimum approval count 3. -/
def C5kb : KB :=
  { metadata :=
      { total_patterns := 1
        total_fixes := 1
        last_updated := ("2024-01-01").toList
        auto_approve_threshold := 17/20
        min_approval_count_for_auto := 3 }
    issue_patterns :=
      [((("P1").toList),
        { pattern := ("dob > CURRENT_DATE").toList
          description := ("future dates of birth").toList
          dq_dimension := ("Accuracy").toList
          historical_fixes := [C5fx] })] }

/-- Claim C5, the store after recording one approval. -/
def C5after1 : KB :=
  updateFixStats C5kb (("2025-10-12").toList) (("P1").toList)
    (("F1").toList) true

/-- Claim C5, the store after recording a second approval. -/
def C5after2 : KB :=
  updateFixStats C5after1 (("2025-10-12").toList) (("P1").toList)
    (("F1").toList) true

/-- Claim C7, a store holding pattern P1 with no fixes, last updated on
2024-01-01. -/
def C7kb : KB :=
  { metadata :=
      { total_patterns := 1
        total_fixes := 0
        last_updated := ("2024-01-01").toList
        auto_approve_threshold := 17/20
        min_approval_count_for_auto := 3 }
    issue_patterns :=
      [((("P1").toList),
        { pattern := ("dob > CURRENT_DATE").toList
          description := ("future dates of birth").toList
          dq_dimension := ("Accuracy").toList
          historical_fixes := [] })] }

/-- Claim C8, a stored pattern used twice (under ids A and B) to force a
similarity tie. -/
def C8pat : IssuePattern :=
  { pattern := ("dob > CURRENT_DATE").toList
    description := ("futuredates").toList
    dq_dimension := ("Accuracy").toList
    historical_fixes := [] }

/-- Claim C8, store with two tied patterns. -/
def C8kb : KB :=
  { metadata :=
      { total_patterns := 2
        total_fixes := 0
        last_updated := ("2024-01-01").toList
        auto_approve_threshold := 17/20
        min_approval_count_for_auto := 3 }
    issue_patterns := [((("A").toList), C8pat), ((("B").toList), C8pat)] }

/-- Claim C8, an empty store. -/
def C8kbE : KB :=
  { metadata :=
      { total_patterns := 0
        total_fixes := 0
        last_updated := ("2024-01-01").toList
        auto_approve_threshold := 17/20
        min_approval_count_for_auto := 3 }
    issue_patterns := [] }

/-- Claim C9, a sample `create_ticket` argument tuple. -/
def C9args : TicketArgs :=
  { now := ("2025-10-12T10:00:00").toList
    summary := ("DQ violation on dob").toList
    description := ("5 rows have future dob").toList
    priority := ("High").toList
    affected_rows := 5
    fix_sql := some (("UPDATE t SET dob = NULL WHERE dob > CURRENT_DATE").toList)
    assignee := ("DQ-Team").toList }

/-! ## Theorems -/

theorem isPrefixOf_eq_true_iff (p : Str) :
    ∀ s : Str, p.isPrefixOf s = true ↔ ∃ t, s = p ++ t := by
  induction p with
  | nil =>
    intro s
    simp [List.isPrefixOf]
  | cons a p ih =>
    intro s
    cases s with
    | nil => simp [List.isPrefixOf]
    | cons b t =>
      simp only [List.isPrefixOf, Bool.and_eq_true, beq_iff_eq, ih]
      constructor
      · rintro ⟨hab, u, hu⟩
        exact ⟨u, by simp [hab, hu]⟩
      · rintro ⟨u, hu⟩
        simp only [List.cons_append, List.cons_eq_cons] at hu
        exact ⟨hu.1.symm, u, hu.2⟩

theorem isPrefixOf_append_self (p t : Str) : p.isPrefixOf (p ++ t) = true := by
  exact (isPrefixOf_eq_true_iff p (p ++ t)).2 ⟨t, rfl⟩

theorem replaceFuel_congr (pat rep : Str) :
    ∀ f g s, s.length ≤ f → s.length ≤ g →
      replaceFuel pat rep f s = replaceFuel pat rep g s := by
  intro f
  induction f with
  | zero =>
    intro g s hf _
    have : s = [] := List.eq_nil_of_length_eq_zero (Nat.le_zero.mp hf)
    subst this
    cases g <;> simp [replaceFuel]
  | succ f ih =>
    intro g s hf hg
    cases s with
    | nil => cases g <;> simp [replaceFuel]
    | cons c rest =>
      cases g with
      | zero => exact absurd hg (by simp)
      | succ g =>
        simp only [List.length_cons] at hf hg
        simp only [replaceFuel]
        by_cases h : pat ≠ [] ∧ pat.isPrefixOf (c :: rest) = true
        · simp only [if_pos h]
          have hplen : 1 ≤ pat.length := by
            cases pat with
            | nil => exact absurd rfl h.1
            | cons _ _ => simp
          have hdl : ((c :: rest).drop pat.length).length
              = (c :: rest).length - pat.length :=
            List.length_drop pat.length (c :: rest)
          simp only [List.length_cons] at hdl
          have hlen : ((c :: rest).drop pat.length).length ≤ f := by omega
          have hlen' : ((c :: rest).drop pat.length).length ≤ g := by omega
          rw [ih g _ hlen hlen']
        · simp only [if_neg h]
          have h1 : rest.length ≤ f := by omega
          have h2 : rest.length ≤ g := by omega
          rw [ih g rest h1 h2]

theorem pyReplace_nil (pat rep : Str) : pyReplace [] pat rep = [] := rfl

/-- Unfolding equation: a match at the head is replaced and scanning resumes
after the matched region. -/
theorem pyReplace_pos (pat rep s : Str) (hne : pat ≠ [])
    (hp : pat.isPrefixOf s = true) :
    pyReplace s pat rep = rep ++ pyReplace (s.drop pat.length) pat rep := by
  cases s with
  | nil =>
    rcases (isPrefixOf_eq_true_iff pat []).1 hp with ⟨t, ht⟩
    have : pat = [] := by
      cases pat with
      | nil => rfl
      | cons a p => simp at ht
    exact absurd this hne
  | cons c rest =>
    show replaceFuel pat rep (rest.length + 1) (c :: rest) = _
    rw [replaceFuel, if_pos ⟨hne, hp⟩]
    congr 1
    have hplen : 1 ≤ pat.length := by
      cases pat with
      | nil => exact absurd rfl hne
      | cons _ _ => simp
    have hdl : ((c :: rest).drop pat.length).length
        = (c :: rest).length - pat.length :=
      List.length_drop pat.length (c :: rest)
    simp only [List.length_cons] at hdl
    apply replaceFuel_congr
    · omega
    · exact Nat.le_refl _

/-- Unfolding equation: a non-matching head character is kept. -/
theorem pyReplace_neg (pat rep : Str) (c : Char) (s : Str)
    (h : ¬ (pat ≠ [] ∧ pat.isPrefixOf (c :: s) = true)) :
    pyReplace (c :: s) pat rep = c :: pyReplace s pat rep := by
  show replaceFuel pat rep (s.length + 1) (c :: s) = _
  rw [replaceFuel, if_neg h]
  rfl

theorem containsSubstr_cons_of_false (c : Char) (s pat : Str)
    (h : containsSubstr (c :: s) pat = false) :
    pat.isPrefixOf (c :: s) = false ∧ containsSubstr s pat = false := by
  by_cases hp : pat.isPrefixOf (c :: s) = true
  · exfalso
    have : containsSubstr (c :: s) pat = true := by
      simp [containsSubstr, findSub, hp]
    rw [this] at h; exact Bool.noConfusion h
  · refine ⟨by simpa only [Bool.not_eq_true] using hp, ?_⟩
    by_cases hs : containsSubstr s pat = true
    · exfalso
      simp only [containsSubstr, Option.isSome_iff_exists] at hs
      rcases hs with ⟨n, hn⟩
      have : containsSubstr (c :: s) pat = true := by
        simp [containsSubstr, findSub, hp, hn, Option.isSome_iff_exists]
      rw [this] at h; exact Bool.noConfusion h
    · simpa only [Bool.not_eq_true] using hs

/-- If `pat` never occurs in `s`, replacing does nothing. -/
theorem pyReplace_of_not_contains (pat rep : Str) :
    ∀ s, containsSubstr s pat = false → pyReplace s pat rep = s := by
  intro s
  induction s with
  | nil => intro _; rfl
  | cons c rest ih =>
    intro h
    rcases containsSubstr_cons_of_false c rest pat h with ⟨h1, h2⟩
    rw [pyReplace_neg pat rep c rest (by simp [h1]), ih h2]

/-- Replacing a pattern sitting at the head of the string. -/
theorem pyReplace_append_head (pat rep t : Str) (hne : pat ≠ []) :
    pyReplace (pat ++ t) pat rep = rep ++ pyReplace t pat rep := by
  rw [pyReplace_pos pat rep (pat ++ t) hne (isPrefixOf_append_self pat t)]
  congr 1
  rw [List.drop_left]

/-- Replacing a pattern that occurs exactly at the end of the string: if no
scan position strictly inside `X` matches `pat`, the terminal occurrence is
replaced and `X` is kept verbatim. -/
theorem pyReplace_append_end (pat rep : Str) (hne : pat ≠ []) :
    ∀ X : Str, (∀ i, i < X.length → pat.isPrefixOf ((X ++ pat).drop i) = false) →
      pyReplace (X ++ pat) pat rep = X ++ rep := by
  intro X
  induction X with
  | nil =>
    intro _
    simp only [List.nil_append]
    have hh := pyReplace_append_head pat rep [] hne
    rw [List.append_nil] at hh
    rw [hh, pyReplace_nil, List.append_nil]
  | cons c X ih =>
    intro h
    have h0 : pat.isPrefixOf (c :: (X ++ pat)) = false := by
      have := h 0 (by simp)
      simpa using this
    rw [List.cons_append, pyReplace_neg pat rep c (X ++ pat) (by simp [h0])]
    rw [ih (fun i hi => by
      have := h (i + 1) (by simpa using Nat.succ_lt_succ hi)
      simpa using this)]
    rw [List.cons_append]

theorem occursIn_nil_iff (pat : Str) : occursIn pat [] ↔ pat = [] := by
  constructor
  · rintro ⟨t, u, h⟩
    rcases List.append_eq_nil.1 h.symm with ⟨h1, h2⟩
    rcases List.append_eq_nil.1 h1 with ⟨_, h3⟩
    exact h3
  · rintro rfl
    exact ⟨[], [], rfl⟩

theorem occursIn_cons_iff (pat : Str) (c : Char) (x : Str) :
    occursIn pat (c :: x) ↔ pat.isPrefixOf (c :: x) = true ∨ occursIn pat x := by
  constructor
  · rintro ⟨t, u, h⟩
    cases t with
    | nil =>
      left
      exact (isPrefixOf_eq_true_iff pat (c :: x)).2 ⟨u, by simpa using h⟩
    | cons d t' =>
      right
      simp only [List.cons_append, List.cons_eq_cons] at h
      exact ⟨t', u, h.2⟩
  · rintro (h | ⟨t, u, h⟩)
    · rcases (isPrefixOf_eq_true_iff pat (c :: x)).1 h with ⟨u, hu⟩
      exact ⟨[], u, by simpa using hu⟩
    · exact ⟨c :: t, u, by simp [h]⟩

theorem containsSubstr_eq_true_iff (s pat : Str) :
    containsSubstr s pat = true ↔ occursIn pat s := by
  induction s with
  | nil =>
    rw [occursIn_nil_iff]
    constructor
    · intro h
      by_cases hp : pat.isPrefixOf [] = true
      · rcases (isPrefixOf_eq_true_iff pat []).1 hp with ⟨t, ht⟩
        cases pat with
        | nil => rfl
        | cons a p => simp at ht
      · simp only [containsSubstr, findSub, if_neg hp] at h
        exact Bool.noConfusion h
    · rintro rfl
      simp [containsSubstr, findSub, List.isPrefixOf]
  | cons c rest ih =>
    rw [occursIn_cons_iff, ← ih]
    by_cases hp : pat.isPrefixOf (c :: rest) = true
    · simp [containsSubstr, findSub, hp]
    · simp only [containsSubstr, findSub, if_neg hp]
      cases hfs : findSub pat rest with
      | none => simp [hfs, hp]
      | some n => simp [hfs, hp]

theorem occursIn_append (pat a b : Str) (hpat : pat ≠ [])
    (h : occursIn pat (a ++ b)) :
    (∃ h0, pat.head? = some h0 ∧ h0 ∈ a) ∨ occursIn pat b := by
  induction a with
  | nil => right; simpa using h
  | cons c a' ih =>
    rw [List.cons_append, occursIn_cons_iff] at h
    rcases h with h | h
    · rcases (isPrefixOf_eq_true_iff pat _).1 h with ⟨t, ht⟩
      cases pat with
      | nil => exact absurd rfl hpat
      | cons p0 pat' =>
        left
        simp only [List.cons_append, List.cons_eq_cons] at ht
        exact ⟨p0, rfl, by simp [ht.1]⟩
    · rcases ih h with ⟨h0, hh, hm⟩ | h'
      · exact Or.inl ⟨h0, hh, List.mem_cons_of_mem c hm⟩
      · exact Or.inr h'

/-- If `q` (whose characters all come from `pat`) fails to be a prefix of `s`,
then it also fails to be a prefix of the replaced string, provided the
replacement text begins with a character not occurring in `pat`. -/
theorem prefix_preserved (pat rep : Str) (hrep : rep ≠ [])
    (hhd : ∀ r0, rep.head? = some r0 → r0 ∉ pat) :
    ∀ n s q, s.length ≤ n → q ≠ [] → (∀ c ∈ q, c ∈ pat) →
      ¬ q.isPrefixOf s = true → ¬ q.isPrefixOf (pyReplace s pat rep) = true := by
  intro n
  induction n with
  | zero =>
    intro s q hs hq _ _
    have : s = [] := List.eq_nil_of_length_eq_zero (Nat.le_zero.mp hs)
    subst this
    rw [pyReplace_nil]
    intro hcon
    rcases (isPrefixOf_eq_true_iff q []).1 hcon with ⟨t, ht⟩
    cases q with
    | nil => exact hq rfl
    | cons a p => simp at ht
  | succ n ih =>
    intro s q hs hq hqc hqs
    cases s with
    | nil =>
      rw [pyReplace_nil]
      intro hcon
      rcases (isPrefixOf_eq_true_iff q []).1 hcon with ⟨t, ht⟩
      cases q with
      | nil => exact hq rfl
      | cons a p => simp at ht
    | cons c rest =>
      by_cases hpe : pat = []
      · exfalso
        subst hpe
        cases q with
        | nil => exact hq rfl
        | cons q0 q' => simpa using hqc q0 (by simp)
      · by_cases hp : pat.isPrefixOf (c :: rest) = true
        · rw [pyReplace_pos pat rep (c :: rest) hpe hp]
          intro hcon
          cases q with
          | nil => exact hq rfl
          | cons q0 q' =>
            rcases (isPrefixOf_eq_true_iff _ _).1 hcon with ⟨t, ht⟩
            cases rep with
            | nil => exact hrep rfl
            | cons r0 rep' =>
              simp only [List.cons_append, List.cons_eq_cons] at ht
              have : r0 ∈ pat := by
                rw [ht.1]
                exact hqc q0 (by simp)
              exact hhd r0 rfl this
        · rw [pyReplace_neg pat rep c rest (by simp [hp])]
          intro hcon
          cases q with
          | nil => exact hq rfl
          | cons q0 q' =>
            rcases (isPrefixOf_eq_true_iff _ _).1 hcon with ⟨t, ht⟩
            simp only [List.cons_append, List.cons_eq_cons] at ht
            have hq0 : q0 = c := ht.1.symm
            have hq'R : q'.isPrefixOf (pyReplace rest pat rep) = true :=
              (isPrefixOf_eq_true_iff _ _).2 ⟨t, ht.2⟩
            by_cases hq' : q' = []
            · subst hq'
              apply hqs
              apply (isPrefixOf_eq_true_iff _ _).2
              exact ⟨rest, by simp [hq0]⟩
            · have hnrest : ¬ q'.isPrefixOf rest = true := by
                intro hr
                apply hqs
                rcases (isPrefixOf_eq_true_iff _ _).1 hr with ⟨t', ht'⟩
                apply (isPrefixOf_eq_true_iff _ _).2
                exact ⟨t', by simp [hq0, ht']⟩
              have hrl : rest.length ≤ n := by
                simp only [List.length_cons] at hs; omega
              exact ih rest q' hrl hq'
                (fun d hd => hqc d (List.mem_cons_of_mem q0 hd)) hnrest hq'R

/-- Key property of Python `str.replace`: after replacing, no occurrence of
the pattern remains, provided the replacement text neither starts with a
character of the pattern nor contains the pattern's first character.  (Both
side conditions are needed: without them a fresh occurrence can straddle the
boundary of an inserted replacement.) -/
theorem pyReplace_no_occurrence (pat rep : Str) (hpat : pat ≠ [])
    (hrep : rep ≠ [])
    (hhd : ∀ r0, rep.head? = some r0 → r0 ∉ pat)
    (hph : ∀ p0, pat.head? = some p0 → p0 ∉ rep) :
    ∀ n s, s.length ≤ n → ¬ occursIn pat (pyReplace s pat rep) := by
  intro n
  induction n with
  | zero =>
    intro s hs
    have : s = [] := List.eq_nil_of_length_eq_zero (Nat.le_zero.mp hs)
    subst this
    rw [pyReplace_nil, occursIn_nil_iff]
    exact hpat
  | succ n ih =>
    intro s hs
    cases s with
    | nil =>
      rw [pyReplace_nil, occursIn_nil_iff]
      exact hpat
    | cons c rest =>
      by_cases hp : pat.isPrefixOf (c :: rest) = true
      · rw [pyReplace_pos pat rep (c :: rest) hpat hp]
        intro hocc
        rcases occursIn_append pat rep _ hpat hocc with ⟨h0, hh, hm⟩ | hocc'
        · exact hph h0 hh hm
        · have hplen : 1 ≤ pat.length := by
            cases pat with
            | nil => exact absurd rfl hpat
            | cons _ _ => simp
          have hlen : ((c :: rest).drop pat.length).length ≤ n := by
            have hdl := List.length_drop pat.length (c :: rest)
            simp only [List.length_cons] at hdl hs
            omega
          exact ih _ hlen hocc'
      · rw [pyReplace_neg pat rep c rest (by simp [hp])]
        intro hocc
        rcases (occursIn_cons_iff pat c _).1 hocc with hpre | hocc'
        · have := prefix_preserved pat rep hrep hhd (n + 1) (c :: rest) pat
            hs hpat (fun _ h => h) (by simp [hp])
          rw [pyReplace_neg pat rep c rest (by simp [hp])] at this
          exact this hpre
        · have hrl : rest.length ≤ n := by
            simp only [List.length_cons] at hs; omega
          exact ih rest hrl hocc'

/-- Packaged form: `s.replace(pat, rep)` leaves no occurrence of `pat`. -/
theorem pyReplace_removes_all (pat rep s : Str) (hpat : pat ≠ [])
    (hrep : rep ≠ [])
    (hhd : ∀ r0, rep.head? = some r0 → r0 ∉ pat)
    (hph : ∀ p0, pat.head? = some p0 → p0 ∉ rep) :
    containsSubstr (pyReplace s pat rep) pat = false := by
  have h := pyReplace_no_occurrence pat rep hpat hrep hhd hph s.length s
    (Nat.le_refl _)
  by_cases hb : containsSubstr (pyReplace s pat rep) pat = true
  · exact absurd ((containsSubstr_eq_true_iff _ _).1 hb) h
  · simpa only [Bool.not_eq_true] using hb

/-! ## Claim theorems -/

theorem findSub_none_of_not_contains (s pat : Str)
    (h : containsSubstr s pat = false) : findSub pat s = none := by
  cases hf : findSub pat s with
  | none => rfl
  | some n =>
    rw [containsSubstr, hf] at h
    exact Bool.noConfusion h

/-- Claim C1, counterexample to the claim as stated.  The resolved
statement `UPDATE `p.d.`p.d.customers`` SET NOWHERE_FLAG = 1` has update
semantics and contains no standalone WHERE word — it has no scoping
clause — yet the execute path accepts it verbatim and the preview path
also passes validation. -/
theorem C1_counterexample :
    containsSubstr (upperStr (resolveTable
        (("UPDATE \x7btable\x7d SET NOWHERE_FLAG = 1").toList)
        (("customers").toList)
        (fullTableOf (("p").toList) (("d").toList) (("customers").toList))))
      updTok = true
    ∧ containsWord (upperStr (resolveTable
        (("UPDATE \x7btable\x7d SET NOWHERE_FLAG = 1").toList)
        (("customers").toList)
        (fullTableOf (("p").toList) (("d").toList) (("customers").toList))))
      whereTok = false
    ∧ executeFix (("UPDATE \x7btable\x7d SET NOWHERE_FLAG = 1").toList)
        (("customers").toList) (("p").toList) (("d").toList)
      = .ok (resolveTable
        (("UPDATE \x7btable\x7d SET NOWHERE_FLAG = 1").toList)
        (("customers").toList)
        (fullTableOf (("p").toList) (("d").toList) (("customers").toList)))
    ∧ exceptIsOk (dryRunFix (("UPDATE \x7btable\x7d SET NOWHERE_FLAG = 1").toList)
        (("customers").toList) (("p").toList) (("d").toList)) = true :=
  ⟨rfl, rfl, rfl, rfl⟩

/-- Claim C1 (amended): every proposed mutation statement with update or
delete semantics whose resolved text contains no occurrence of the
substring "WHERE" (case-insensitively) is rejected with an error by both
the preview path and the execute path, and no statement is sent to the
data store for it. -/
theorem C1_rejects_without_where_token (sql full : Str)
    (hmut : containsSubstr (upperStr sql) updTok = true
      ∨ containsSubstr (upperStr sql) delTok = true)
    (hnw : containsSubstr (upperStr sql) whereTok = false) :
    exceptIsOk (dryRunDerive sql full) = false
    ∧ executeGate sql = .error execErr := by
  have hfind : findSub whereTok (upperStr sql) = none :=
    findSub_none_of_not_contains _ _ hnw
  constructor
  · by_cases hu : containsSubstr (upperStr sql) updTok = true
    · simp [dryRunDerive, hu, hfind, exceptIsOk]
    · have hd : containsSubstr (upperStr sql) delTok = true := by
        rcases hmut with h | h
        · exact absurd h hu
        · exact h
      simp [dryRunDerive, hu, hd, hfind, exceptIsOk]
  · unfold executeGate
    rw [if_pos]
    refine ⟨?_, hnw⟩
    rcases hmut with h | h <;> simp [h]

/-- Claim C1, witness: the statement `DELETE FROM `p.d.t`` is rejected on
both paths. -/
theorem C1_witness :
    exceptIsOk (dryRunDerive (("DELETE FROM `p.d.t`").toList)
      (("`p.d.t`").toList)) = false
    ∧ executeGate (("DELETE FROM `p.d.t`").toList) = .error execErr :=
  C1_rejects_without_where_token (("DELETE FROM `p.d.t`").toList)
    (("`p.d.t`").toList) (Or.inr rfl) rfl

/-- Claim C10: the safety gate's scoping check is a case-insensitive
substring test.  Any statement with update/delete semantics whose
uppercased text contains "WHERE" anywhere passes the execute path's
validation and is executed verbatim, and also passes the preview path's
validation. -/
theorem C10_substring_gate (sql full : Str)
    (hmut : containsSubstr (upperStr sql) updTok = true
      ∨ containsSubstr (upperStr sql) delTok = true)
    (hw : containsSubstr (upperStr sql) whereTok = true) :
    executeGate sql = .ok sql ∧ exceptIsOk (dryRunDerive sql full) = true := by
  rcases Option.isSome_iff_exists.mp hw with ⟨i, hfind⟩
  constructor
  · unfold executeGate
    rw [if_neg]
    rintro ⟨-, hc⟩
    rw [hw] at hc
    exact Bool.noConfusion hc
  · by_cases hu : containsSubstr (upperStr sql) updTok = true
    · simp [dryRunDerive, hu, hfind, exceptIsOk]
    · have hd : containsSubstr (upperStr sql) delTok = true := by
        rcases hmut with h | h
        · exact absurd h hu
        · exact h
      simp [dryRunDerive, hu, hd, hfind, exceptIsOk]

/-- Claim C10, witness: the resolved statement
`UPDATE `p.d.`p.d.customers`` SET NOWHERE_FLAG = 1` contains "WHERE" only
inside the column name NOWHERE_FLAG, yet it passes both validations and is
executed. -/
theorem C10_witness :
    executeGate (resolveTable
        (("UPDATE \x7btable\x7d SET NOWHERE_FLAG = 1").toList)
        (("customers").toList)
        (fullTableOf (("p").toList) (("d").toList) (("customers").toList)))
      = .ok (resolveTable
        (("UPDATE \x7btable\x7d SET NOWHERE_FLAG = 1").toList)
        (("customers").toList)
        (fullTableOf (("p").toList) (("d").toList) (("customers").toList)))
    ∧ exceptIsOk (dryRunDerive (resolveTable
        (("UPDATE \x7btable\x7d SET NOWHERE_FLAG = 1").toList)
        (("customers").toList)
        (fullTableOf (("p").toList) (("d").toList) (("customers").toList)))
      (fullTableOf (("p").toList) (("d").toList) (("customers").toList)))
      = true :=
  C10_substring_gate _ _ (Or.inl rfl) rfl

/-- Claim C2, counterexample to the claim as stated.  With two placeholder
occurrences the identifier is substituted at two distinct sites (the
result splits as `t ++ full ++ u ++ full ++ v`), not exactly once; and a
statement retaining the unresolved placeholder `\x7bvalue\x7d` is not
rejected: `execute_fix` accepts it, no `UnresolvedPlaceholderError`
exists. -/
theorem C2_counterexample :
    (resolveTable C2tpl (("customers").toList) C2full
      = ("UPDATE `p.d.").toList ++ C2full
        ++ ("` SET x = 1 WHERE id IN (SELECT id FROM `p.d.").toList
        ++ C2full ++ ("`)").toList)
    ∧ containsSubstr (resolveTable C2tpl (("customers").toList) C2full)
        tablePh = false
    ∧ containsSubstr (resolveTable C2tplB (("customers").toList) C2full)
        (("\x7bvalue\x7d").toList) = true
    ∧ executeFix C2tplB (("customers").toList) (("p").toList) (("d").toList)
      = .ok (resolveTable C2tplB (("customers").toList) C2full) :=
  ⟨rfl, rfl, rfl, rfl⟩

/-- Claim C2 (amended): placeholder resolution substitutes **every**
occurrence of the table placeholder with the fully-qualified identifier —
after the substitution step no occurrence of the placeholder remains
(provided the identifier starts with a backtick and contains no brace, as
the built identifiers do) — and no unresolved-placeholder check is
performed: resolution never fails, and the execute path's only error is
the missing-WHERE rejection. -/
theorem C2_resolution_behaviour :
    (∀ s rep : Str, rep.head? = some backtickChar → lbraceChar ∉ rep →
      containsSubstr (pyReplace s tablePh rep) tablePh = false)
    ∧ (∀ tpl table proj ds : Str,
        executeFix tpl table proj ds = .error execErr
        ∨ executeFix tpl table proj ds
          = .ok (resolveTable tpl table (fullTableOf proj ds table))) := by
  constructor
  · intro s rep hh hb
    apply pyReplace_removes_all
    · decide
    · intro h
      rw [h] at hh
      exact Option.noConfusion hh
    · intro r0 hr0
      rw [hh] at hr0
      cases hr0
      intro hmem
      have : backtickChar ∈ tablePh := hmem
      revert this
      decide
    · intro p0 hp0
      have : p0 = lbraceChar := by
        have ht : tablePh.head? = some lbraceChar := by decide
        rw [ht] at hp0
        exact (Option.some_inj.mp hp0).symm
      rw [this]
      exact hb
  · intro tpl table proj ds
    unfold executeFix executeGate
    by_cases h : (containsSubstr (upperStr (resolveTable tpl table
          (fullTableOf proj ds table))) updTok
        || containsSubstr (upperStr (resolveTable tpl table
          (fullTableOf proj ds table))) delTok) = true
      ∧ containsSubstr (upperStr (resolveTable tpl table
          (fullTableOf proj ds table))) whereTok = false
    · rw [if_pos h]
      exact Or.inl rfl
    · rw [if_neg h]
      exact Or.inr rfl

/-- Claim C2, witness: after substitution no `\x7btable\x7d` placeholder
survives in a concrete doubly-placeheld template, and a concrete
`execute_fix` call takes one of the two stated result forms. -/
theorem C2_witness :
    containsSubstr (pyReplace C2tpl tablePh C2full) tablePh = false
    ∧ (executeFix C2tplB (("customers").toList) (("p").toList) (("d").toList)
        = .error execErr
      ∨ executeFix C2tplB (("customers").toList) (("p").toList) (("d").toList)
        = .ok (resolveTable C2tplB (("customers").toList)
            (fullTableOf (("p").toList) (("d").toList) (("customers").toList)))) :=
  ⟨C2_resolution_behaviour.1 C2tpl C2full (by decide) (by decide),
   C2_resolution_behaviour.2 C2tplB (("customers").toList) (("p").toList)
     (("d").toList)⟩

/-- Claim C6, counterexample to the claim as stated.  For an UPDATE whose
predicate contains a subquery `SELECT *`, the derived count query rewrites
the predicate text as well (`EXISTS (SELECT COUNT(*) as total ...)`), so it
is not a count over the same predicate: the original predicate no longer
occurs in the count query at all. -/
theorem C6_counterexample :
    dryRunFix C6btpl (("T").toList) (("p").toList) (("d").toList)
      = .ok
        ((("SELECT * FROM `p.d.T` WHERE EXISTS (SELECT * FROM u WHERE uid = 1) LIMIT 100").toList),
         (("SELECT COUNT(*) as total FROM `p.d.T` WHERE EXISTS (SELECT COUNT(*) as total FROM u WHERE uid = 1) ").toList))
    ∧ containsSubstr
        (("SELECT COUNT(*) as total FROM `p.d.T` WHERE EXISTS (SELECT COUNT(*) as total FROM u WHERE uid = 1) ").toList)
        (("WHERE EXISTS (SELECT * FROM u WHERE uid = 1)").toList) = false :=
  ⟨rfl, rfl⟩

/-- Claim C6 (amended): for every resolved UPDATE or DELETE statement in
which "WHERE" occurs (at position `i` of its first case-insensitive
occurrence, with `w` the statement suffix from there — the WHERE predicate
whenever the first occurrence starts the true WHERE clause), the preview
derivation produces `SELECT * FROM <table> <w> LIMIT 100`, and — provided
neither "SELECT *" nor "LIMIT 100" occurs inside the table identifier or
the predicate — a count query `SELECT COUNT(*) as total FROM <table> <w> `
over the same predicate without the row cap.  The second conjunct runs the
spec's example end to end. -/
theorem C6_preview_derivation :
    (∀ sql full w : Str, ∀ i : Nat,
      (containsSubstr (upperStr sql) updTok = true
        ∨ containsSubstr (upperStr sql) delTok = true) →
      findSub whereTok (upperStr sql) = some i →
      w = sql.drop i →
      containsSubstr ((" FROM ").toList ++ full ++ (" ").toList ++ w
          ++ (" LIMIT 100").toList) (("SELECT *").toList) = false →
      (∀ j, j < (("SELECT COUNT(*) as total FROM ").toList ++ full
          ++ (" ").toList ++ w ++ (" ").toList).length →
        (("LIMIT 100").toList).isPrefixOf
          (((("SELECT COUNT(*) as total FROM ").toList ++ full ++ (" ").toList
            ++ w ++ (" ").toList ++ ("LIMIT 100").toList)).drop j) = false) →
      dryRunDerive sql full
        = .ok ((("SELECT * FROM ").toList ++ full ++ (" ").toList ++ w
            ++ (" LIMIT 100").toList),
          (("SELECT COUNT(*) as total FROM ").toList ++ full ++ (" ").toList
            ++ w ++ (" ").toList)))
    ∧ dryRunFix (("UPDATE \x7btable\x7d SET dob = NULL WHERE dob > CURRENT_DATE").toList)
        (("T").toList) (("proj").toList) (("ds").toList)
      = .ok ((("SELECT * FROM `proj.ds.T` WHERE dob > CURRENT_DATE LIMIT 100").toList),
        (("SELECT COUNT(*) as total FROM `proj.ds.T` WHERE dob > CURRENT_DATE ").toList)) := by
  constructor
  · intro sql full w i hmut hfind hw h1 h2
    subst hw
    have hd : dryRunDerive sql full
        = .ok ((("SELECT * FROM ").toList ++ full ++ (" ").toList
            ++ sql.drop i ++ (" LIMIT 100").toList),
          countSqlOf ((("SELECT * FROM ").toList ++ full ++ (" ").toList
            ++ sql.drop i ++ (" LIMIT 100").toList))) := by
      by_cases hu : containsSubstr (upperStr sql) updTok = true
      · simp [dryRunDerive, hu, hfind]
      · have hdel : containsSubstr (upperStr sql) delTok = true := by
          rcases hmut with h | h
          · exact absurd h hu
          · exact h
        simp [dryRunDerive, hu, hdel, hfind]
    rw [hd]
    have hcount : countSqlOf ((("SELECT * FROM ").toList ++ full ++ (" ").toList
          ++ sql.drop i ++ (" LIMIT 100").toList))
        = ("SELECT COUNT(*) as total FROM ").toList ++ full ++ (" ").toList
          ++ sql.drop i ++ (" ").toList := by
      have e1 : ("SELECT * FROM ").toList ++ full ++ (" ").toList
            ++ sql.drop i ++ (" LIMIT 100").toList
          = ("SELECT *").toList ++ ((" FROM ").toList ++ full ++ (" ").toList
            ++ sql.drop i ++ (" LIMIT 100").toList) := by
        have hlit : ("SELECT * FROM ").toList
            = ("SELECT *").toList ++ (" FROM ").toList := by decide
        rw [hlit]
        simp [List.append_assoc]
      unfold countSqlOf
      rw [e1, pyReplace_append_head _ _ _ (by decide),
        pyReplace_of_not_contains _ _ _ h1]
      have e2 : ("SELECT COUNT(*) as total").toList
            ++ ((" FROM ").toList ++ full ++ (" ").toList ++ sql.drop i
              ++ (" LIMIT 100").toList)
          = (("SELECT COUNT(*) as total FROM ").toList ++ full ++ (" ").toList
              ++ sql.drop i ++ (" ").toList) ++ ("LIMIT 100").toList := by
        have hlit1 : ("SELECT COUNT(*) as total FROM ").toList
            = ("SELECT COUNT(*) as total").toList ++ (" FROM ").toList := by
          decide
        have hlit2 : (" LIMIT 100").toList
            = (" ").toList ++ ("LIMIT 100").toList := by decide
        rw [hlit1, hlit2]
        simp [List.append_assoc]
      rw [e2, pyReplace_append_end _ _ (by decide) _ h2, List.append_nil]
    rw [hcount]
  · rfl

/-- Claim C6, witness: the general derivation applied to the resolved
statement of the spec's example, whose first WHERE occurrence is at
index 34. -/
theorem C6_witness :
    dryRunDerive (("UPDATE `proj.ds.T` SET dob = NULL WHERE dob > CURRENT_DATE").toList)
      (("`proj.ds.T`").toList)
      = .ok ((("SELECT * FROM ").toList ++ (("`proj.ds.T`").toList)
          ++ (" ").toList ++ (("WHERE dob > CURRENT_DATE").toList)
          ++ (" LIMIT 100").toList),
        (("SELECT COUNT(*) as total FROM ").toList ++ (("`proj.ds.T`").toList)
          ++ (" ").toList ++ (("WHERE dob > CURRENT_DATE").toList)
          ++ (" ").toList)) :=
  C6_preview_derivation.1
    (("UPDATE `proj.ds.T` SET dob = NULL WHERE dob > CURRENT_DATE").toList)
    (("`proj.ds.T`").toList) (("WHERE dob > CURRENT_DATE").toList) 34
    (Or.inl (by decide)) (by decide) (by decide) (by decide) (by decide)

/-! ### Helper lemmas about the Knowledge Bank operations -/

theorem find_updateEntry (pid : Str) (g : IssuePattern → IssuePattern) :
    ∀ l : List (Str × IssuePattern),
      (updateEntry l pid g).find? (fun e => decide (e.fst = pid))
        = (l.find? (fun e => decide (e.fst = pid))).map
            (fun e => (e.fst, g e.snd)) := by
  intro l
  induction l with
  | nil => rfl
  | cons e rest ih =>
    obtain ⟨k, v⟩ := e
    by_cases hk : k = pid
    · subst hk
      simp [updateEntry, List.find?]
    · simp [updateEntry, hk, List.find?, ih]

theorem updateEntry_fixed (pid : Str) (g : IssuePattern → IssuePattern) :
    ∀ l : List (Str × IssuePattern),
      (∀ e, l.find? (fun e => decide (e.fst = pid)) = some e → g e.snd = e.snd) →
      updateEntry l pid g = l := by
  intro l
  induction l with
  | nil => intro _; rfl
  | cons e rest ih =>
    intro h
    obtain ⟨k, v⟩ := e
    by_cases hk : k = pid
    · subst hk
      have hv : g v = v := by
        have := h (k, v) (by simp [List.find?])
        simpa using this
      simp [updateEntry, hv]
    · have hr := ih (fun e he => h e (by simp [List.find?, hk, he]))
      simp [updateEntry, hk, hr]

theorem findFix_updateFirstFix (fid : Str) (g : HistoricalFix → HistoricalFix)
    (hg : ∀ f, (g f).fix_id = f.fix_id) :
    ∀ l, findFix fid (updateFirstFix fid g l) = (findFix fid l).map g := by
  intro l
  induction l with
  | nil => rfl
  | cons f rest ih =>
    by_cases hf : f.fix_id = fid
    · simp [updateFirstFix, hf, findFix, List.find?, hg]
    · simp [updateFirstFix, hf, findFix, List.find?] at ih ⊢
      exact ih

theorem updateFirstFix_of_none (fid : Str) (g : HistoricalFix → HistoricalFix) :
    ∀ l, findFix fid l = none → updateFirstFix fid g l = l := by
  intro l
  induction l with
  | nil => intro _; rfl
  | cons f rest ih =>
    intro h
    by_cases hf : f.fix_id = fid
    · exfalso
      simp [findFix, List.find?, hf] at h
    · have hd : decide (f.fix_id = fid) = false := decide_eq_false hf
      rw [findFix, List.find?, hd] at h
      have h' : findFix fid rest = none := h
      simp [updateFirstFix, hf, ih h']

theorem applyOutcome_fix_id (θ : ℚ) (m : Nat) (today : Str) (b : Bool)
    (f : HistoricalFix) : (applyOutcome θ m today b f).fix_id = f.fix_id := rfl

theorem lookupPattern_mk (M : KBMeta) (l : List (Str × IssuePattern))
    (pid : Str) :
    lookupPattern { metadata := M, issue_patterns := l } pid
      = (l.find? (fun e => decide (e.fst = pid))).map Prod.snd := rfl

/-- Effect of `update_fix_stats` on `get_fix_by_id`: the addressed fix (if
present) is mapped through `applyOutcome`, with the thresholds read from
the store metadata. -/
theorem getFix_updateFixStats (kb : KB) (today pid fid : Str) (b : Bool) :
    getFixById (updateFixStats kb today pid fid b) pid fid
      = (getFixById kb pid fid).map
        (applyOutcome kb.metadata.auto_approve_threshold
          kb.metadata.min_approval_count_for_auto today b) := by
  unfold updateFixStats
  by_cases h : (lookupPattern kb pid).isNone
  · rw [if_pos h]
    have hn : lookupPattern kb pid = none := Option.isNone_iff_eq_none.mp h
    unfold getFixById
    rw [hn]
    rfl
  · rw [if_neg h]
    obtain ⟨p, hp⟩ : ∃ p, lookupPattern kb pid = some p := by
      cases hl : lookupPattern kb pid with
      | none => exact absurd (Option.isNone_iff_eq_none.mpr hl) h
      | some p => exact ⟨p, rfl⟩
    unfold getFixById
    rw [lookupPattern_mk, find_updateEntry]
    have hfind : kb.issue_patterns.find? (fun e => decide (e.fst = pid))
        = some (pid, p) := by
      unfold lookupPattern at hp
      cases hf : kb.issue_patterns.find? (fun e => decide (e.fst = pid)) with
      | none => rw [hf] at hp; exact Option.noConfusion hp
      | some e =>
        have hkey : e.fst = pid := by
          have := List.find?_some hf
          simpa using this
        rw [hf] at hp
        have hsnd : e.snd = p := by simpa using hp
        rw [← hkey, ← hsnd]
    rw [hfind, hp]
    simp only [Option.map_some', Option.some_bind]
    exact findFix_updateFirstFix fid _ (applyOutcome_fix_id _ _ _ _)
      p.historical_fixes

theorem meta_updateFixStats (kb : KB) (today pid fid : Str) (b : Bool) :
    (updateFixStats kb today pid fid b).metadata.auto_approve_threshold
      = kb.metadata.auto_approve_threshold
    ∧ (updateFixStats kb today pid fid b).metadata.min_approval_count_for_auto
      = kb.metadata.min_approval_count_for_auto := by
  unfold updateFixStats
  by_cases h : (lookupPattern kb pid).isNone
  · rw [if_pos h]; exact ⟨rfl, rfl⟩
  · rw [if_neg h]; exact ⟨rfl, rfl⟩

theorem applyOutcome_sum (θ : ℚ) (m : Nat) (today : Str) (b : Bool)
    (f : HistoricalFix) :
    (applyOutcome θ m today b f).approval_count
        + (applyOutcome θ m today b f).rejection_count
      = f.approval_count + f.rejection_count + 1 := by
  cases b <;> simp [applyOutcome] <;> omega

theorem applyOutcome_counts (θ : ℚ) (m : Nat) (today : Str)
    (f : HistoricalFix) :
    (applyOutcome θ m today true f).approval_count = f.approval_count + 1
    ∧ (applyOutcome θ m today true f).rejection_count = f.rejection_count
    ∧ (applyOutcome θ m today false f).approval_count = f.approval_count
    ∧ (applyOutcome θ m today false f).rejection_count
        = f.rejection_count + 1 :=
  ⟨rfl, rfl, rfl, rfl⟩

theorem applyOutcome_rate (θ : ℚ) (m : Nat) (today : Str) (b : Bool)
    (f : HistoricalFix) :
    (applyOutcome θ m today b f).success_rate
      = ((applyOutcome θ m today b f).approval_count : ℚ)
        / (((applyOutcome θ m today b f).approval_count
            + (applyOutcome θ m today b f).rejection_count : ℕ) : ℚ) := by
  cases b
  · show (if 0 < f.approval_count + (f.rejection_count + 1) then
        ((f.approval_count : ℕ) : ℚ)
          / ((f.approval_count + (f.rejection_count + 1) : ℕ) : ℚ)
      else 0) = _
    rw [if_pos (by omega)]
    rfl
  · show (if 0 < f.approval_count + 1 + f.rejection_count then
        ((f.approval_count + 1 : ℕ) : ℚ)
          / ((f.approval_count + 1 + f.rejection_count : ℕ) : ℚ)
      else 0) = _
    rw [if_pos (by omega)]
    rfl

theorem applyOutcome_auto (θ : ℚ) (m : Nat) (today : Str) (b : Bool)
    (f : HistoricalFix) :
    ((applyOutcome θ m today b f).auto_approve = true
      ↔ θ ≤ (applyOutcome θ m today b f).success_rate
        ∧ m ≤ (applyOutcome θ m today b f).approval_count) := by
  cases b <;> simp [applyOutcome]

theorem find?_append_none {α : Type} {p : α → Bool} :
    ∀ l₁ l₂ : List α, l₁.find? p = none → (l₁ ++ l₂).find? p = l₂.find? p := by
  intro l₁
  induction l₁ with
  | nil => intro l₂ _; rfl
  | cons a rest ih =>
    intro l₂ h
    by_cases ha : p a = true
    · exfalso; simp [List.find?, ha] at h
    · have hd : p a = false := by simpa only [Bool.not_eq_true] using ha
      rw [List.find?, hd] at h
      rw [List.cons_append, List.find?, hd]
      exact ih l₂ h

theorem getFix_applySeq (today pid fid : Str) :
    ∀ (bs : List Bool) (kb : KB) (f : HistoricalFix),
      getFixById kb pid fid = some f →
      ∃ f', getFixById (applySeq today pid fid kb bs) pid fid = some f'
        ∧ f'.approval_count + f'.rejection_count
          = f.approval_count + f.rejection_count + bs.length
        ∧ (bs = [] → f' = f)
        ∧ (bs ≠ [] → f'.success_rate
            = (f'.approval_count : ℚ)
              / ((f'.approval_count + f'.rejection_count : ℕ) : ℚ)) := by
  intro bs
  induction bs with
  | nil =>
    intro kb f hf
    exact ⟨f, hf, by simp, fun _ => rfl, fun h => absurd rfl h⟩
  | cons b rest ih =>
    intro kb f hf
    have h1 : getFixById (updateFixStats kb today pid fid b) pid fid
        = some (applyOutcome kb.metadata.auto_approve_threshold
          kb.metadata.min_approval_count_for_auto today b f) := by
      rw [getFix_updateFixStats, hf]
      rfl
    obtain ⟨f', hf', hsum, hnil, hrate⟩ :=
      ih (updateFixStats kb today pid fid b) _ h1
    refine ⟨f', hf', ?_, ?_, ?_⟩
    · rw [hsum, applyOutcome_sum]
      simp only [List.length_cons]
      omega
    · intro h
      exact absurd h (by simp)
    · intro _
      by_cases hr : rest = []
      · subst hr
        rw [hnil rfl]
        exact applyOutcome_rate _ _ _ _ _
      · exact hrate hr

/-- Claim C4: for every fix present in the store and any finite sequence
of `update_outcome` calls addressed at it, each call increments exactly one
of the two counters by one (so their sum never decreases and grows by the
number of calls), and after each call the fix's `success_rate` equals
`approval_count / (approval_count + rejection_count)`. -/
theorem C4_monotone_counts_rate :
    (∀ (kb : KB) (today pid fid : Str) (b : Bool) (f : HistoricalFix),
      getFixById kb pid fid = some f →
      ∃ f', getFixById (updateFixStats kb today pid fid b) pid fid = some f'
        ∧ f'.approval_count + f'.rejection_count
          = f.approval_count + f.rejection_count + 1
        ∧ (b = true → f'.approval_count = f.approval_count + 1
            ∧ f'.rejection_count = f.rejection_count)
        ∧ (b = false → f'.approval_count = f.approval_count
            ∧ f'.rejection_count = f.rejection_count + 1)
        ∧ f'.success_rate = (f'.approval_count : ℚ)
            / ((f'.approval_count + f'.rejection_count : ℕ) : ℚ))
    ∧ (∀ (kb : KB) (today pid fid : Str) (bs : List Bool) (f : HistoricalFix),
      getFixById kb pid fid = some f →
      ∃ f', getFixById (applySeq today pid fid kb bs) pid fid = some f'
        ∧ f.approval_count + f.rejection_count
          ≤ f'.approval_count + f'.rejection_count
        ∧ f'.approval_count + f'.rejection_count
          = f.approval_count + f.rejection_count + bs.length
        ∧ (bs ≠ [] → f'.success_rate = (f'.approval_count : ℚ)
            / ((f'.approval_count + f'.rejection_count : ℕ) : ℚ))) := by
  constructor
  · intro kb today pid fid b f hf
    refine ⟨applyOutcome kb.metadata.auto_approve_threshold
        kb.metadata.min_approval_count_for_auto today b f, ?_, ?_, ?_, ?_, ?_⟩
    · rw [getFix_updateFixStats, hf]; rfl
    · exact applyOutcome_sum _ _ _ _ _
    · rintro rfl
      exact ⟨(applyOutcome_counts _ _ _ f).1, (applyOutcome_counts _ _ _ f).2.1⟩
    · rintro rfl
      exact ⟨(applyOutcome_counts _ _ _ f).2.2.1,
        (applyOutcome_counts _ _ _ f).2.2.2⟩
    · exact applyOutcome_rate _ _ _ _ _
  · intro kb today pid fid bs f hf
    obtain ⟨f', hf', hsum, _, hrate⟩ := getFix_applySeq today pid fid bs kb f hf
    exact ⟨f', hf', by omega, hsum, hrate⟩

/-- Claim C4, witness: two calls (one approval, one rejection) on the
stored fix of `C4kb`. -/
theorem C4_witness :
    ∃ f', getFixById (applySeq (("2025-10-12").toList) (("P1").toList)
          (("F1").toList) C4kb [true, false]) (("P1").toList) (("F1").toList)
        = some f'
      ∧ 0 + 0 ≤ f'.approval_count + f'.rejection_count
      ∧ f'.approval_count + f'.rejection_count = 0 + 0 + 2
      ∧ (([true, false] : List Bool) ≠ [] → f'.success_rate
          = (f'.approval_count : ℚ)
            / ((f'.approval_count + f'.rejection_count : ℕ) : ℚ)) :=
  C4_monotone_counts_rate.2 C4kb (("2025-10-12").toList) (("P1").toList)
    (("F1").toList) [true, false] _ rfl

/-- Effect of `add_new_fix` on the addressed pattern: created with the
new fix as sole entry when absent, otherwise the new fix is appended. -/
theorem lookup_addNewFix (kb : KB) (today pid : Str) (fd : FixData) :
    lookupPattern (addNewFix kb today pid fd) pid
      = some (match lookupPattern kb pid with
          | none =>
            { pattern := fd.pattern
              description := fd.description
              dq_dimension := fd.dq_dimension
              historical_fixes := [mkStoredFix today fd] }
          | some p =>
            { p with historical_fixes :=
                p.historical_fixes ++ [mkStoredFix today fd] }) := by
  cases hl : lookupPattern kb pid with
  | none =>
    have hn : kb.issue_patterns.find? (fun e => decide (e.fst = pid))
        = none := by
      unfold lookupPattern at hl
      cases hf : kb.issue_patterns.find? (fun e => decide (e.fst = pid)) with
      | none => rfl
      | some e => rw [hf] at hl; exact Option.noConfusion hl
    simp only [addNewFix, hl, Option.isNone_none, if_pos]
    rw [lookupPattern_mk, find_updateEntry, find?_append_none _ _ hn]
    simp [List.find?]
  | some p =>
    have hfind : kb.issue_patterns.find? (fun e => decide (e.fst = pid))
        = some (pid, p) := by
      unfold lookupPattern at hl
      cases hf : kb.issue_patterns.find? (fun e => decide (e.fst = pid)) with
      | none => rw [hf] at hl; exact Option.noConfusion hl
      | some e =>
        have hkey : e.fst = pid := by
          have := List.find?_some hf
          simpa using this
        rw [hf] at hl
        have hsnd : e.snd = p := by simpa using hl
        rw [← hkey, ← hsnd]
    have hnn : (lookupPattern kb pid).isNone = false := by
      rw [hl]; rfl
    simp only [addNewFix, hnn, Bool.false_eq_true, if_false]
    rw [lookupPattern_mk, find_updateEntry, hfind]
    rfl

/-- Claim C3, counterexample to the claim as stated.  `add_new_fix` stores
the caller-supplied `success_rate = 0.9` and `auto_approve = true`
verbatim, although the stored counters give the ratio `1/2` and violate
the `auto_approve` definition (`approval_count = 1 < 3`): the derived
fields are *not* recomputed on this write. -/
theorem C3_counterexample :
    (getFixById (addNewFix C3kb (("2025-10-12").toList) (("DOB_FUTURE").toList)
          C3fd) (("DOB_FUTURE").toList) (("F1").toList)).map
        (fun f => (f.success_rate, f.approval_count, f.rejection_count,
          f.auto_approve))
      = some (9/10, 1, 1, true)
    ∧ (9 : ℚ)/10 ≠ ((1 : ℕ) : ℚ) / (((1 + 1 : ℕ)) : ℚ)
    ∧ ¬ ((17 : ℚ)/20 ≤ 9/10 ∧ 3 ≤ 1) :=
  ⟨rfl, by push_cast; norm_num, fun h => absurd h.2 (by omega)⟩

/-- Claim C3 (amended): `update_outcome` recomputes the updated fix's
`success_rate` and `auto_approve` from the counters on every successful
write; `add_new_fix`, however, appends a fix whose `success_rate` and
`auto_approve` are exactly the caller-supplied values (defaulting to 0.0
and false), without recomputation from the supplied counters. -/
theorem C3_recompute_on_update_only :
    (∀ (kb : KB) (today pid fid : Str) (b : Bool) (f' : HistoricalFix),
      getFixById (updateFixStats kb today pid fid b) pid fid = some f' →
      f'.success_rate = (f'.approval_count : ℚ)
          / ((f'.approval_count + f'.rejection_count : ℕ) : ℚ)
        ∧ (f'.auto_approve = true
          ↔ kb.metadata.auto_approve_threshold ≤ f'.success_rate
            ∧ kb.metadata.min_approval_count_for_auto ≤ f'.approval_count))
    ∧ (∀ (kb : KB) (today pid : Str) (fd : FixData),
      ∃ p', lookupPattern (addNewFix kb today pid fd) pid = some p'
        ∧ p'.historical_fixes.getLast? = some (mkStoredFix today fd))
    ∧ (∀ (today : Str) (fd : FixData),
      (mkStoredFix today fd).success_rate = fd.success_rate
        ∧ (mkStoredFix today fd).auto_approve = fd.auto_approve) := by
  refine ⟨?_, ?_, fun _ _ => ⟨rfl, rfl⟩⟩
  · intro kb today pid fid b f' hf'
    rw [getFix_updateFixStats] at hf'
    rcases Option.map_eq_some'.mp hf' with ⟨f0, _, hmap⟩
    subst hmap
    exact ⟨applyOutcome_rate _ _ _ _ _, applyOutcome_auto _ _ _ _ _⟩
  · intro kb today pid fd
    rw [lookup_addNewFix]
    cases hl : lookupPattern kb pid with
    | none =>
      refine ⟨_, rfl, ?_⟩
      rfl
    | some p =>
      refine ⟨_, rfl, ?_⟩
      show (p.historical_fixes ++ [mkStoredFix today fd]).getLast?
        = some (mkStoredFix today fd)
      rw [List.getLast?_concat]

/-- Claim C3, witness: the update path applied to `C3kbU` (the updated fix
satisfies the rate equation), and the add path applied to `C3kb`. -/
theorem C3_witness :
    (applyOutcome C3kbU.metadata.auto_approve_threshold
        C3kbU.metadata.min_approval_count_for_auto (("2025-10-12").toList)
        true C3fxU).success_rate
      = ((applyOutcome C3kbU.metadata.auto_approve_threshold
          C3kbU.metadata.min_approval_count_for_auto (("2025-10-12").toList)
          true C3fxU).approval_count : ℚ)
        / (((applyOutcome C3kbU.metadata.auto_approve_threshold
            C3kbU.metadata.min_approval_count_for_auto (("2025-10-12").toList)
            true C3fxU).approval_count
          + (applyOutcome C3kbU.metadata.auto_approve_threshold
            C3kbU.metadata.min_approval_count_for_auto (("2025-10-12").toList)
            true C3fxU).rejection_count : ℕ) : ℚ)
    ∧ (∃ p', lookupPattern (addNewFix C3kb (("2025-10-12").toList)
          (("DOB_FUTURE").toList) C3fd) (("DOB_FUTURE").toList) = some p'
        ∧ p'.historical_fixes.getLast?
          = some (mkStoredFix (("2025-10-12").toList) C3fd)) := by
  constructor
  · exact (C3_recompute_on_update_only.1 C3kbU (("2025-10-12").toList)
      (("P1").toList) (("F1").toList) true _
      (by rw [getFix_updateFixStats]; rfl)).1
  · exact C3_recompute_on_update_only.2.1 C3kb (("2025-10-12").toList)
      (("DOB_FUTURE").toList) C3fd

/-- Claim C5: after `update_outcome` recomputes a fix, `auto_approve` holds
iff `success_rate ≥ auto_approve_threshold` and
`approval_count ≥ min_approval_count`.  In particular, with threshold 0.85
and minimum 3, a fix recomputed at `approval_count = 2, rejection_count =
0` has `auto_approve = false`, and one more approval (`approval_count =
3`) flips it to `true`. -/
theorem C5_auto_approve_iff :
    (∀ (kb : KB) (today pid fid : Str) (b : Bool) (f' : HistoricalFix),
      getFixById (updateFixStats kb today pid fid b) pid fid = some f' →
      (f'.auto_approve = true
        ↔ kb.metadata.auto_approve_threshold ≤ f'.success_rate
          ∧ kb.metadata.min_approval_count_for_auto ≤ f'.approval_count))
    ∧ (getFixById C5after1 (("P1").toList) (("F1").toList)).map
        (fun f => (f.approval_count, f.rejection_count)) = some (2, 0)
    ∧ (getFixById C5after1 (("P1").toList) (("F1").toList)).map
        HistoricalFix.auto_approve = some false
    ∧ (getFixById C5after2 (("P1").toList) (("F1").toList)).map
        (fun f => (f.approval_count, f.rejection_count)) = some (3, 0)
    ∧ (getFixById C5after2 (("P1").toList) (("F1").toList)).map
        HistoricalFix.auto_approve = some true := by
  refine ⟨?_, rfl, ?_, rfl, ?_⟩
  · intro kb today pid fid b f' hf'
    rw [getFix_updateFixStats] at hf'
    rcases Option.map_eq_some'.mp hf' with ⟨f0, _, hmap⟩
    subst hmap
    exact applyOutcome_auto _ _ _ _ _
  · show some ((applyOutcome C5kb.metadata.auto_approve_threshold
        C5kb.metadata.min_approval_count_for_auto (("2025-10-12").toList)
        true C5fx).auto_approve) = some false
    refine congrArg some ?_
    show (decide ((17:ℚ)/20 ≤ (if 0 < (2:ℕ) then ((2:ℕ) : ℚ) / (((2:ℕ)) : ℚ)
        else 0)) && decide ((3:ℕ) ≤ 2)) = false
    rw [show (decide ((3:ℕ) ≤ 2)) = false from rfl, Bool.and_false]
  · show some ((applyOutcome C5after1.metadata.auto_approve_threshold
        C5after1.metadata.min_approval_count_for_auto (("2025-10-12").toList)
        true (applyOutcome C5kb.metadata.auto_approve_threshold
          C5kb.metadata.min_approval_count_for_auto (("2025-10-12").toList)
          true C5fx)).auto_approve) = some true
    refine congrArg some ?_
    have h85 : (17:ℚ)/20 ≤ (if 0 < (3:ℕ) then ((3:ℕ) : ℚ) / (((3:ℕ)) : ℚ)
        else 0) := by
      rw [if_pos (by norm_num)]
      norm_num
    show (decide ((17:ℚ)/20 ≤ (if 0 < (3:ℕ) then ((3:ℕ) : ℚ) / (((3:ℕ)) : ℚ)
        else 0)) && decide ((3:ℕ) ≤ 3)) = true
    rw [decide_eq_true h85, show (decide ((3:ℕ) ≤ 3)) = true from rfl]
    rfl

/-- Claim C5, witness: the biconditional instantiated at the first
approval recorded into `C5kb`. -/
theorem C5_witness :
    (applyOutcome C5kb.metadata.auto_approve_threshold
        C5kb.metadata.min_approval_count_for_auto (("2025-10-12").toList)
        true C5fx).auto_approve = true
      ↔ C5kb.metadata.auto_approve_threshold
          ≤ (applyOutcome C5kb.metadata.auto_approve_threshold
            C5kb.metadata.min_approval_count_for_auto (("2025-10-12").toList)
            true C5fx).success_rate
        ∧ C5kb.metadata.min_approval_count_for_auto
          ≤ (applyOutcome C5kb.metadata.auto_approve_threshold
            C5kb.metadata.min_approval_count_for_auto (("2025-10-12").toList)
            true C5fx).approval_count :=
  C5_auto_approve_iff.1 C5kb (("2025-10-12").toList) (("P1").toList)
    (("F1").toList) true _ (by rw [getFix_updateFixStats]; rfl)

/-- Claim C7, counterexample to the claim as stated.  Calling
`update_outcome` with an existing pattern but an unknown fix id raises
nothing, but it does **not** leave the persisted store unchanged: the store
is re-saved and `metadata.last_updated` moves to the current date. -/
theorem C7_counterexample :
    lookupPattern C7kb (("P1").toList) ≠ none
    ∧ getFixById C7kb (("P1").toList) (("F9").toList) = none
    ∧ updateFixStats C7kb (("2025-10-12").toList) (("P1").toList)
        (("F9").toList) true ≠ C7kb
    ∧ (updateFixStats C7kb (("2025-10-12").toList) (("P1").toList)
        (("F9").toList) true).metadata.last_updated = ("2025-10-12").toList
    ∧ C7kb.metadata.last_updated ≠ ("2025-10-12").toList := by
  refine ⟨?_, rfl, ?_, rfl, ?_⟩
  · intro h
    exact Option.noConfusion h
  · intro h
    have h1 : (updateFixStats C7kb (("2025-10-12").toList) (("P1").toList)
        (("F9").toList) true).metadata.last_updated
        = C7kb.metadata.last_updated := by rw [h]
    have h2 : (("2025-10-12").toList : Str) = ("2024-01-01").toList := h1
    simp at h2
  · intro h
    have h2 : (("2024-01-01").toList : Str) = ("2025-10-12").toList := h
    simp at h2

/-- Claim C7 (amended): `update_outcome` raises nothing and never touches
any pattern, fix or counter when the addressed record is missing.  With a
missing `pattern_id` the store is returned untouched; with an existing
pattern but missing `fix_id` the store is nevertheless re-persisted, so
`metadata.last_updated` is refreshed to the current date while everything
else is unchanged. -/
theorem C7_noop_behaviour :
    (∀ (kb : KB) (today pid fid : Str) (b : Bool),
      lookupPattern kb pid = none → updateFixStats kb today pid fid b = kb)
    ∧ (∀ (kb : KB) (today pid fid : Str) (b : Bool) (p : IssuePattern),
      lookupPattern kb pid = some p →
      findFix fid p.historical_fixes = none →
      updateFixStats kb today pid fid b
        = { kb with metadata := { kb.metadata with last_updated := today } }) := by
  constructor
  · intro kb today pid fid b h
    unfold updateFixStats
    rw [if_pos (Option.isNone_iff_eq_none.mpr h)]
  · intro kb today pid fid b p hp hfix
    have hnn : (lookupPattern kb pid).isNone = false := by rw [hp]; rfl
    unfold updateFixStats
    rw [hnn]
    simp only [Bool.false_eq_true, if_false]
    have hfind : kb.issue_patterns.find? (fun e => decide (e.fst = pid))
        = some (pid, p) := by
      unfold lookupPattern at hp
      cases hf : kb.issue_patterns.find? (fun e => decide (e.fst = pid)) with
      | none => rw [hf] at hp; exact Option.noConfusion hp
      | some e =>
        have hkey : e.fst = pid := by
          have := List.find?_some hf
          simpa using this
        rw [hf] at hp
        have hsnd : e.snd = p := by simpa using hp
        rw [← hkey, ← hsnd]
    congr 1
    apply updateEntry_fixed
    intro e he
    rw [hfind] at he
    cases he
    show { p with historical_fixes := updateFirstFix fid _ p.historical_fixes } = p
    rw [updateFirstFix_of_none fid _ p.historical_fixes hfix]

/-- Claim C7, witness: both no-op shapes instantiated on `C7kb` (missing
pattern `P9`; existing pattern `P1` with missing fix `F9`). -/
theorem C7_witness :
    updateFixStats C7kb (("2025-10-12").toList) (("P9").toList)
        (("F9").toList) true = C7kb
    ∧ updateFixStats C7kb (("2025-10-12").toList) (("P1").toList)
        (("F9").toList) true
      = { C7kb with metadata :=
          { C7kb.metadata with last_updated := ("2025-10-12").toList } } :=
  ⟨C7_noop_behaviour.1 C7kb (("2025-10-12").toList) (("P9").toList)
      (("F9").toList) true rfl,
   C7_noop_behaviour.2 C7kb (("2025-10-12").toList) (("P1").toList)
      (("F9").toList) true _ rfl rfl⟩

/-- The scanning loop of `search_similar_issue` returns the first pattern
attaining the maximal similarity, provided that similarity beats both the
running best and the 0.3 threshold; otherwise the incoming accumulator is
returned. -/
theorem searchGo_eq (qs : Finset Str) :
    ∀ (l : List (Str × IssuePattern)) (bsim : ℚ) (best : Option SearchHit),
      searchGo qs l bsim best
        = if max bsim ((3:ℚ)/10) < maxSimOf qs l then
            (l.find? (fun e =>
              decide (patternSim qs e.snd = maxSimOf qs l))).map
              (fun e => mkHit e.fst e.snd (patternSim qs e.snd))
          else best := by
  intro l
  induction l with
  | nil =>
    intro bsim best
    rw [if_neg]
    · rfl
    · intro hcon
      have h0 : maxSimOf qs [] = 0 := rfl
      rw [h0] at hcon
      have h2 : (3:ℚ)/10 ≤ max bsim ((3:ℚ)/10) := le_max_right _ _
      linarith [h2, hcon]
  | cons e rest ih =>
    intro bsim best
    obtain ⟨pid, p⟩ := e
    have hM : maxSimOf qs ((pid, p) :: rest)
        = max (patternSim qs p) (maxSimOf qs rest) := rfl
    by_cases hc : bsim < patternSim qs p ∧ (3:ℚ)/10 < patternSim qs p
    · have hstep : searchGo qs ((pid, p) :: rest) bsim best
          = searchGo qs rest (patternSim qs p)
            (some (mkHit pid p (patternSim qs p))) := by
        simp only [searchGo]
        rw [if_pos hc]
      rw [hstep, ih, hM]
      have hmax_s : max (patternSim qs p) ((3:ℚ)/10) = patternSim qs p :=
        max_eq_left (le_of_lt hc.2)
      rw [hmax_s]
      have hlt : max bsim ((3:ℚ)/10) < max (patternSim qs p) (maxSimOf qs rest) :=
        lt_of_lt_of_le (max_lt hc.1 hc.2) (le_max_left _ _)
      rw [if_pos hlt]
      by_cases hsM : patternSim qs p < maxSimOf qs rest
      · rw [if_pos hsM]
        have hmax : max (patternSim qs p) (maxSimOf qs rest) = maxSimOf qs rest :=
          max_eq_right (le_of_lt hsM)
        rw [hmax]
        rw [List.find?_cons_of_neg _ (by
          simpa using ne_of_lt hsM)]
      · rw [if_neg hsM]
        have hmax : max (patternSim qs p) (maxSimOf qs rest) = patternSim qs p :=
          max_eq_left (not_lt.mp hsM)
        rw [hmax]
        rw [List.find?_cons_of_pos _ (by simp)]
        rfl
    · have hstep : searchGo qs ((pid, p) :: rest) bsim best
          = searchGo qs rest bsim best := by
        simp only [searchGo]
        rw [if_neg hc]
      rw [hstep, ih, hM]
      have hsle : patternSim qs p ≤ max bsim ((3:ℚ)/10) := by
        rcases not_and_or.mp hc with h | h
        · exact le_trans (not_lt.mp h) (le_max_left _ _)
        · exact le_trans (not_lt.mp h) (le_max_right _ _)
      by_cases hM2 : max bsim ((3:ℚ)/10) < maxSimOf qs rest
      · rw [if_pos hM2,
          if_pos (lt_of_lt_of_le hM2 (le_max_right (patternSim qs p) _))]
        have hmax : max (patternSim qs p) (maxSimOf qs rest) = maxSimOf qs rest :=
          max_eq_right (le_of_lt (lt_of_le_of_lt hsle hM2))
        rw [hmax]
        rw [List.find?_cons_of_neg _ (by
          simpa using ne_of_lt (lt_of_le_of_lt hsle hM2))]
      · rw [if_neg hM2, if_neg]
        intro hcon
        rcases lt_max_iff.mp hcon with h | h
        · exact absurd h (not_lt.mpr hsle)
        · exact hM2 h

/-- Claim C8: the matcher returns the first stored pattern (in insertion
order, which settles ties) attaining the highest Jaccard similarity of
lowercase word sets when that similarity exceeds the 0.3 threshold, and
the no-match sentinel otherwise — in particular for an empty store it
returns the sentinel without failing. -/
theorem C8_matcher_selection (kb : KB) (ipat desc : Str) :
    (kb.issue_patterns = [] → searchSimilarIssue kb ipat desc = none)
    ∧ searchSimilarIssue kb ipat desc
      = (if (3:ℚ)/10 < maxSimOf (wordSet desc) kb.issue_patterns then
          (kb.issue_patterns.find? (fun e =>
            decide (patternSim (wordSet desc) e.snd
              = maxSimOf (wordSet desc) kb.issue_patterns))).map
            (fun e => mkHit e.fst e.snd (patternSim (wordSet desc) e.snd))
        else none) := by
  constructor
  · intro h
    unfold searchSimilarIssue
    rw [h]
    rfl
  · unfold searchSimilarIssue
    rw [searchGo_eq]
    have hm : max (0:ℚ) ((3:ℚ)/10) = (3:ℚ)/10 := max_eq_right (by norm_num)
    rw [hm]

/-- Claim C8, witness: the empty store yields the sentinel, and on a
perfect two-way tie (similarity 1 for both stored patterns) the first
pattern in insertion order, A, is returned. -/
theorem C8_witness :
    searchSimilarIssue C8kbE ([]) ([]) = none
    ∧ searchSimilarIssue C8kb ([]) (("futuredates").toList)
      = some (mkHit (("A").toList) C8pat 1) := by
  constructor
  · exact (C8_matcher_selection C8kbE [] []).1 rfl
  · rw [(C8_matcher_selection C8kb [] (("futuredates").toList)).2]
    have hsim : patternSim (wordSet (("futuredates").toList)) C8pat
        = ((1:ℕ) : ℚ)/(((1:ℕ)) : ℚ) := by
      show (if (1:ℕ) = 0 then (0:ℚ) else ((1:ℕ) : ℚ) / (((1:ℕ)) : ℚ))
        = ((1:ℕ) : ℚ)/(((1:ℕ)) : ℚ)
      rw [if_neg (by norm_num)]
    have h1 : ((1:ℕ) : ℚ)/(((1:ℕ)) : ℚ) = 1 := by norm_num
    have hmax : maxSimOf (wordSet (("futuredates").toList)) C8kb.issue_patterns
        = max (patternSim (wordSet (("futuredates").toList)) C8pat)
            (max (patternSim (wordSet (("futuredates").toList)) C8pat) 0) := rfl
    rw [hmax, hsim, h1]
    have hmx : max (1:ℚ) (max 1 0) = 1 := by
      rw [max_eq_left (by norm_num : (0:ℚ) ≤ 1), max_self]
    rw [hmx, if_pos (by norm_num : (3:ℚ)/10 < 1)]
    have hl : C8kb.issue_patterns
        = [((("A").toList), C8pat), ((("B").toList), C8pat)] := rfl
    rw [hl, List.find?_cons_of_pos _ (by simpa using hsim.trans h1)]
    show some (mkHit (("A").toList) C8pat
      (patternSim (wordSet (("futuredates").toList)) C8pat)) = _
    rw [hsim, h1]

/-- Claim C9: each `create_ticket` call assigns the next sequential number
(previous `last_ticket_id` plus one) formatted as `DQ-` plus the number
zero-padded to width 4, sets status OPEN, and appends the ticket to the
log; hence over any sequence of calls the assigned numbers are the
strictly increasing run `last+1, last+2, ...`, each created ticket is
OPEN, and previously stored tickets are never removed. -/
theorem C9_ticket_sequence :
    (∀ (st : TicketStore) (a : TicketArgs),
      (createTicket st a).snd.last_ticket_id = st.last_ticket_id + 1
      ∧ (createTicket st a).snd.tickets
          = st.tickets ++ [(createTicket st a).fst]
      ∧ (createTicket st a).fst.status = ("OPEN").toList
      ∧ (createTicket st a).fst.ticket_id
          = fmtTicketId (st.last_ticket_id + 1))
    ∧ (∀ (st : TicketStore) (l : List TicketArgs),
      ∃ newts : List Ticket,
        (runCreates st l).tickets = st.tickets ++ newts
        ∧ newts.map Ticket.ticket_id
          = (List.range l.length).map
              (fun i => fmtTicketId (st.last_ticket_id + 1 + i))
        ∧ (∀ t ∈ newts, t.status = ("OPEN").toList)
        ∧ (runCreates st l).last_ticket_id = st.last_ticket_id + l.length) := by
  refine ⟨fun st a => ⟨rfl, rfl, rfl, rfl⟩, ?_⟩
  intro st l
  induction l generalizing st with
  | nil =>
    exact ⟨[], by simp [runCreates], by simp, by simp, by simp [runCreates]⟩
  | cons a rest ih =>
    obtain ⟨newts1, h1, h2, h3, h4⟩ := ih (createTicket st a).snd
    refine ⟨(createTicket st a).fst :: newts1, ?_, ?_, ?_, ?_⟩
    · show (runCreates (createTicket st a).snd rest).tickets = _
      rw [h1]
      show (st.tickets ++ [(createTicket st a).fst]) ++ newts1 = _
      rw [List.append_assoc]
      rfl
    · rw [List.map_cons, h2]
      have hlast : (createTicket st a).snd.last_ticket_id
          = st.last_ticket_id + 1 := rfl
      simp only [hlast, List.length_cons, List.range_succ_eq_map,
        List.map_cons, List.map_map]
      have hhead : (createTicket st a).fst.ticket_id
          = fmtTicketId (st.last_ticket_id + 1 + 0) := rfl
      have hfun : (fun i => fmtTicketId (st.last_ticket_id + 1 + 1 + i))
          = ((fun i => fmtTicketId (st.last_ticket_id + 1 + i)) ∘ Nat.succ) := by
        funext i
        exact congrArg fmtTicketId (by omega)
      rw [hhead, hfun]
    · intro t ht
      rcases List.mem_cons.mp ht with h | h
      · rw [h]; rfl
      · exact h3 t h
    · show (runCreates (createTicket st a).snd rest).last_ticket_id = _
      rw [h4]
      show st.last_ticket_id + 1 + rest.length = _
      simp only [List.length_cons]
      omega

/-- Claim C9, witness: two calls on an empty log yield tickets DQ-0001 and
DQ-0002, both OPEN, appended in order. -/
theorem C9_witness :
    ∃ newts : List Ticket,
      (runCreates { last_ticket_id := 0, tickets := [] } [C9args, C9args]).tickets
        = [] ++ newts
      ∧ newts.map Ticket.ticket_id
        = (List.range 2).map (fun i => fmtTicketId (0 + 1 + i))
      ∧ (∀ t ∈ newts, t.status = ("OPEN").toList)
      ∧ (runCreates { last_ticket_id := 0, tickets := [] }
          [C9args, C9args]).last_ticket_id = 0 + 2 :=
  C9_ticket_sequence.2 { last_ticket_id := 0, tickets := [] } [C9args, C9args]

end DQ

